import Mathlib

/-!
Verification of the mission-control TUI core (`pkg/ui/model.go`,
`pkg/ui/styles.go`) against its natural-language specification.

The Go code is shallowly embedded: machine `int` becomes `Int` (Go division
truncates toward zero, i.e. `Int.tdiv`), Go strings become `String`
(lower-casing and substring search are re-implemented over the character
list; the project names involved are ASCII), `time.Time` fields become an
abstract `Int` timestamp (the claims only move them around), and the
filesystem-dependent `detectProjectType` becomes an explicit function
parameter that the message handler consults exactly where the source calls
it.  Slice aliasing matters for one claim: `m.filtered = m.projects` makes
the filtered view share the backing array of the registry, while the
filtering loop builds fresh copies; `FilteredRepr` records which of the two
the model currently holds, and `Model.filteredList` is the observable list.
-/

-- ===========================================================================
-- Go primitives
-- ===========================================================================

/-- Go integer division truncates toward zero. -/
def goIntDiv (a b : Int) : Int := Int.tdiv a b

/-- `min` from model.go: `if a < b { return a }; return b`. -/
def goMin (a b : Int) : Int := if a < b then a else b

/-- `maxInt` from model.go (and `max` from styles.go): `if a > b { return a }; return b`. -/
def goMax (a b : Int) : Int := if a > b then a else b

/-- ASCII model of the per-rune lower-casing done by `strings.ToLower`. -/
def goLowerChar (c : Char) : Char :=
  if 'A' ≤ c ∧ c ≤ 'Z' then Char.ofNat (c.toNat + 32) else c

/-- Model of `strings.ToLower` (ASCII range; all names involved are ASCII). -/
def goToLower (s : String) : String := ⟨s.data.map goLowerChar⟩

/-- `needle` is a leading segment of `hay`. -/
def listLeads : List Char → List Char → Bool
  | [], _ => true
  | _ :: _, [] => false
  | a :: as, b :: bs => a == b && listLeads as bs

/-- Model of `strings.Contains sub s`: `sub` occurs contiguously in `s`. -/
def goContainsList : List Char → List Char → Bool
  | [], needle => listLeads needle []
  | c :: t, needle => listLeads needle (c :: t) || goContainsList t needle

/-- Model of `strings.Contains s sub`. -/
def goContains (s sub : String) : Bool := goContainsList s.data sub.data

/-- Model of `fmt.Sscanf(s, "%d", &n)` on the digit-only motion accumulator:
`some` of the parsed value on an all-digit non-empty string, `none` (scan
failure, `n` left untouched) otherwise. -/
def goAtoi (s : String) : Option Nat :=
  if s.data ≠ [] ∧ s.data.all (fun c => '0' ≤ c ∧ c ≤ '9') then
    some (s.data.foldl (fun n c => 10 * n + (c.toNat - ('0').toNat)) 0)
  else none

-- ===========================================================================
-- Data model (types from model.go and discover.go)
-- ===========================================================================

/-- `discover.GitStatus`. -/
structure GitStatus where
  untracked : Int
  modified : Int
  staged : Int
  branch : String
  ahead : Int
  behind : Int
deriving DecidableEq, Repr

/-- `discover.GitHubStatus`. -/
structure GitHubStatus where
  issues : Int
  prs : Int
deriving DecidableEq, Repr

/-- `ui.Project`.  `ptype` carries the `ProjectType` string; the two
`time.Time` fields are abstract timestamps. -/
structure Project where
  name : String
  path : String
  ptype : String
  language : String
  lastBuildTime : Int
  firstCommit : Int
  lastCommit : Int
  staged : Int
  untracked : Int
  modified : Int
  issues : Int
  prs : Int
  vercelState : String
  swiftClean : Int
  swiftFailed : Int
  running : Bool
deriving DecidableEq, Repr

/-- `ui.Stats`. -/
structure Stats where
  vercelReady : Int
  vercelBuilding : Int
  vercelQueued : Int
  vercelFailed : Int
  swiftClean : Int
  swiftFailed : Int
  totalStaged : Int
  totalUntracked : Int
  totalModified : Int
  totalIssues : Int
  totalPRs : Int
  totalProjects : Int
deriving DecidableEq, Repr

/-- The all-zero `Stats` value (`var s Stats`). -/
def Stats.zero : Stats :=
  { vercelReady := 0, vercelBuilding := 0, vercelQueued := 0, vercelFailed := 0
  , swiftClean := 0, swiftFailed := 0
  , totalStaged := 0, totalUntracked := 0, totalModified := 0
  , totalIssues := 0, totalPRs := 0, totalProjects := 0 }

/-- `ui.ViewMode`. -/
inductive ViewMode where
  | ListView
  | DetailView
  | SearchMode
  | ChatMode
  | HelpMode
deriving DecidableEq, Repr

/-- How `m.filtered` is held: `shared` models the slice assignment
`m.filtered = m.projects` (same backing array, so later in-place writes to
`m.projects[i]` show through), `copy` models the append loop that builds a
fresh slice of copied elements. -/
inductive FilteredRepr where
  | shared
  | copy (l : List Project)
deriving DecidableEq, Repr

/-- The asynchronous status messages handled by `Update`. -/
inductive Msg where
  | projectsLoaded (ps : List Project)
  | gitStatus (name : String) (status : Option GitStatus)
  | ghStatus (name : String) (status : Option GitHubStatus)
  | vercelStatus (name : String) (state : String)
  | gitTimes (name : String) (firstCommit lastCommit : Int)
  | language (name : String) (lang : String)
deriving DecidableEq, Repr

/-- The project name a status message is keyed by (`none` for a load). -/
def Msg.statusName? : Msg → Option String
  | .projectsLoaded _ => none
  | .gitStatus n _ => some n
  | .ghStatus n _ => some n
  | .vercelStatus n _ => some n
  | .gitTimes n _ _ => some n
  | .language n _ => some n

/-- Keyboard events, by the `tea.KeyMsg.String()` value the source switches
on: printable characters plus the named keys the handlers mention. -/
inductive Key where
  | char (c : Char)
  | down
  | up
  | enter
  | esc
  | backspace
  | ctrlC
  | ctrlD
  | ctrlU
  | ctrlR
deriving DecidableEq, Repr

/-- `msg.String()` for the modelled keys. -/
def keyString : Key → String
  | .char c => String.singleton c
  | .down => "down"
  | .up => "up"
  | .enter => "enter"
  | .esc => "esc"
  | .backspace => "backspace"
  | .ctrlC => "ctrl+c"
  | .ctrlD => "ctrl+d"
  | .ctrlU => "ctrl+u"
  | .ctrlR => "ctrl+r"

/-- The source's digit test `key >= "0" && key <= "9"` (byte-wise string
comparison).  Every modelled non-character key string starts with a
lowercase letter, which is greater than the digit bytes, so exactly the
single-digit character keys satisfy it. -/
def keyIsDigit : Key → Bool
  | .char c => decide ('0' ≤ c) && decide (c ≤ '9')
  | _ => false

/-- `ui.Model`, restricted to the fields the handlers under verification
read or write.  `searchValue` and `chatValue` are the text-input values. -/
structure Model where
  projects : List Project
  filteredRepr : FilteredRepr
  stats : Stats
  selectedIdx : Int
  scrollOffset : Int
  viewMode : ViewMode
  searchValue : String
  chatValue : String
  motionNum : String
  height : Int
  loading : Bool
  chatResponse : String
  chatError : String
  chatLoading : Bool
deriving DecidableEq, Repr

/-- What a `FilteredRepr` denotes next to a given registry. -/
def FilteredRepr.view (projects : List Project) : FilteredRepr → List Project
  | .shared => projects
  | .copy l => l

/-- The list the program observes when it reads `m.filtered`. -/
def Model.filteredList (m : Model) : List Project :=
  FilteredRepr.view m.projects m.filteredRepr

-- ===========================================================================
-- Registry / projection / stats operations (model.go)
-- ===========================================================================

/-- The body of `syncFiltered` (model.go:458) as a function of the registry
and the filter text: an empty lowered query re-aliases the full list,
otherwise a fresh list of the projects whose lowered name contains the
query is built.  `handleSearchKey` inlines this same loop verbatim. -/
def syncFiltered (projects : List Project) (searchValue : String) : FilteredRepr :=
  let query := goToLower searchValue
  if query = ⟨[]⟩ then .shared
  else .copy (projects.filter (fun p => goContains (goToLower p.name) query))

/-- The loop body of `updateStats` (model.go:430). -/
def statsStep (s : Stats) (p : Project) : Stats :=
  let s :=
    { s with
      totalStaged := s.totalStaged + p.staged
      totalUntracked := s.totalUntracked + p.untracked
      totalModified := s.totalModified + p.modified
      totalIssues := s.totalIssues + p.issues
      totalPRs := s.totalPRs + p.prs
      swiftClean := s.swiftClean + p.swiftClean
      swiftFailed := s.swiftFailed + p.swiftFailed }
  match p.vercelState with
  | "ready" => { s with vercelReady := s.vercelReady + 1 }
  | "building" => { s with vercelBuilding := s.vercelBuilding + 1 }
  | "queued" => { s with vercelQueued := s.vercelQueued + 1 }
  | "failed" => { s with vercelFailed := s.vercelFailed + 1 }
  | _ => s

/-- `updateStats` (model.go:430): a fresh zero `Stats` with the project
count set, folded over the registry. -/
def updateStats (projects : List Project) : Stats :=
  projects.foldl statsStep { Stats.zero with totalProjects := (projects.length : Int) }

/-- The in-place update pattern of every status handler: walk the slice,
rewrite the first element satisfying the guard, `break`. -/
def applyFirst (pred : Project → Bool) (f : Project → Project) : List Project → List Project
  | [] => []
  | p :: ps => if pred p then f p :: ps else p :: applyFirst pred f ps

/-- The non-key branches of `Update` (model.go:328): the five status
messages and the bulk load.  `detect` stands for the filesystem-dependent
`detectProjectType`, consulted exactly where the source calls it (inside
the language handler, on the project that already carries the new
language). -/
def updateMsg (detect : Project → String) (m : Model) (msg : Msg) : Model :=
  match msg with
  | .projectsLoaded ps =>
      { m with projects := ps, filteredRepr := .shared, loading := false
             , stats := { m.stats with totalProjects := (ps.length : Int) } }
  | .gitStatus name status =>
      let projects :=
        match status with
        | none => m.projects
        | some st =>
            applyFirst (fun p => p.name == name)
              (fun p => { p with staged := st.staged, untracked := st.untracked
                               , modified := st.modified }) m.projects
      { m with projects := projects, stats := updateStats projects
             , filteredRepr := syncFiltered projects m.searchValue }
  | .ghStatus name status =>
      let projects :=
        match status with
        | none => m.projects
        | some st =>
            applyFirst (fun p => p.name == name)
              (fun p => { p with issues := st.issues, prs := st.prs }) m.projects
      { m with projects := projects, stats := updateStats projects }
  | .vercelStatus name state =>
      let projects :=
        applyFirst (fun p => p.name == name)
          (fun p => { p with vercelState := state }) m.projects
      { m with projects := projects, stats := updateStats projects
             , filteredRepr := syncFiltered projects m.searchValue }
  | .gitTimes name firstCommit lastCommit =>
      let projects :=
        applyFirst (fun p => p.name == name)
          (fun p => { p with firstCommit := firstCommit, lastCommit := lastCommit }) m.projects
      { m with projects := projects
             , filteredRepr := syncFiltered projects m.searchValue }
  | .language name lang =>
      let projects :=
        applyFirst (fun p => p.name == name)
          (fun p =>
            let p := { p with language := lang }
            { p with ptype := detect p }) m.projects
      { m with projects := projects
             , filteredRepr := syncFiltered projects m.searchValue }

-- ===========================================================================
-- Key handling (model.go)
-- ===========================================================================

/-- Model of the external `textinput` widget at the point the source uses
it: printable characters are appended while the value is below the
configured character limit (50 for search, 500 for chat), backspace drops
the last character, other keys leave the value unchanged. -/
def textinputUpdate (limit : Nat) (v : String) : Key → String
  | .char c => if v.length < limit then v.push c else v
  | .backspace => v.dropRight 1
  | _ => v

/-- The repeat count consumed from the motion accumulator (model.go:600):
`count := 1`, then `fmt.Sscanf` overwrites it when the accumulator is
non-empty and scans. -/
def goCount (s : String) : Int :=
  if s = ⟨[]⟩ then 1 else (((goAtoi s).getD 1 : Nat) : Int)

/-- `getListHeight` (model.go:700). -/
def getListHeight (m : Model) : Int := goMax (m.height - 8) 5

/-- `ensureVisible` (model.go:692). -/
def ensureVisible (m : Model) (listHeight : Int) : Model :=
  if m.selectedIdx < m.scrollOffset then
    { m with scrollOffset := m.selectedIdx }
  else if m.selectedIdx ≥ m.scrollOffset + listHeight then
    { m with scrollOffset := m.selectedIdx - listHeight + 1 }
  else m

/-- `handleListKey` (model.go:591), restricted to its state effects (the
editor/lazygit/url commands it returns are external side effects). -/
def handleListKey (m : Model) (k : Key) : Model :=
  if keyIsDigit k && (decide (m.motionNum ≠ ⟨[]⟩) || decide (keyString k ≠ String.singleton '0')) then
    { m with motionNum := m.motionNum ++ keyString k }
  else
    let count : Int := goCount m.motionNum
    let m := { m with motionNum := ⟨[]⟩ }
    let listHeight := getListHeight m
    let key := keyString k
    if key = String.singleton 'j' ∨ key = "down" then
      ensureVisible
        { m with selectedIdx := goMin (m.selectedIdx + count) ((m.filteredList.length : Int) - 1) }
        listHeight
    else if key = String.singleton 'k' ∨ key = "up" then
      ensureVisible { m with selectedIdx := goMax (m.selectedIdx - count) 0 } listHeight
    else if key = String.singleton 'g' then
      { m with selectedIdx := 0, scrollOffset := 0 }
    else if key = String.singleton 'G' then
      ensureVisible { m with selectedIdx := (m.filteredList.length : Int) - 1 } listHeight
    else if key = "ctrl+d" then
      ensureVisible
        { m with selectedIdx :=
            goMin (m.selectedIdx + goIntDiv listHeight 2) ((m.filteredList.length : Int) - 1) }
        listHeight
    else if key = "ctrl+u" then
      ensureVisible
        { m with selectedIdx := goMax (m.selectedIdx - goIntDiv listHeight 2) 0 } listHeight
    else if key = String.singleton '/' then
      { m with viewMode := .SearchMode }
    else if key = String.singleton 'C' ∨ key = String.singleton 'c' then
      { m with viewMode := .ChatMode }
    else if key = "enter" then
      if 0 < m.filteredList.length then { m with viewMode := .DetailView } else m
    else if key = String.singleton '?' then
      { m with viewMode := .HelpMode }
    else if key = "ctrl+r" then
      { m with loading := true }
    else m

/-- `handleSearchKey` (model.go:705).  The default branch inlines the same
filtering loop as `syncFiltered` and resets the selection. -/
def handleSearchKey (m : Model) (k : Key) : Model :=
  if keyString k = "enter" then
    { m with viewMode := .ListView }
  else if keyString k = "esc" then
    { m with viewMode := .ListView, searchValue := ⟨[]⟩, filteredRepr := .shared }
  else
    let sv := textinputUpdate 50 m.searchValue k
    { m with searchValue := sv, filteredRepr := syncFiltered m.projects sv
           , selectedIdx := 0, scrollOffset := 0 }

/-- `handleChatKey` (model.go:817), restricted to its state effects (the
asynchronous send is external). -/
def handleChatKey (m : Model) (k : Key) : Model :=
  if keyString k = "enter" then
    if m.chatValue = ⟨[]⟩ then m
    else { m with chatValue := ⟨[]⟩, chatLoading := true
                , chatResponse := ⟨[]⟩, chatError := ⟨[]⟩ }
  else if keyString k = "esc" then
    { m with viewMode := .ListView, chatResponse := ⟨[]⟩, chatError := ⟨[]⟩ }
  else
    { m with chatValue := textinputUpdate 500 m.chatValue k }

/-- `handleKey` (model.go:558).  The `Bool` is the quit signal (`tea.Quit`). -/
def handleKey (m : Model) (k : Key) : Model × Bool :=
  let key := keyString k
  if key = String.singleton 'q' ∨ key = "ctrl+c" then
    if m.viewMode = .ListView then (m, true)
    else ({ m with viewMode := .ListView }, false)
  else if key = "esc" then
    if m.viewMode ≠ .ListView then
      ({ m with viewMode := .ListView, searchValue := ⟨[]⟩, chatValue := ⟨[]⟩
              , filteredRepr := .shared, chatResponse := ⟨[]⟩, chatError := ⟨[]⟩ }, false)
    else (m, false)
  else
    match m.viewMode with
    | .SearchMode => (handleSearchKey m k, false)
    | .ChatMode => (handleChatKey m k, false)
    | _ => (handleListKey m k, false)

/-- Deliver a sequence of key events (the quit signal never fires in the
runs under verification, so it is dropped). -/
def runKeys (m : Model) (ks : List Key) : Model :=
  ks.foldl (fun s k => (handleKey s k).1) m

-- ===========================================================================
-- Scrollbar (styles.go)
-- ===========================================================================

/-- The thumb geometry computed inside `RenderScrollbar` (styles.go:225):
`none` when the whole list fits (the function returns the empty string),
otherwise `(thumbSize, thumbPos)`. -/
def scrollbarThumb (current total height : Int) : Option (Int × Int) :=
  if total ≤ height then none
  else
    let thumbSize := goMax 1 (goIntDiv (height * height) total)
    let thumbPos := goIntDiv (current * (height - thumbSize)) (total - height)
    some (thumbSize, thumbPos)

/-- `RenderScrollbar` (styles.go:225): full and empty cells joined by
newlines. -/
def RenderScrollbar (current total height : Int) : String :=
  match scrollbarThumb current total height with
  | none => ⟨[]⟩
  | some (ts, tp) =>
      String.intercalate "\n"
        ((List.range height.toNat).map
          (fun i => if decide (tp ≤ (i : Int)) && decide ((i : Int) < tp + ts)
            then "█" else "░"))

/-- The scrollbar arguments at the render call site (model.go:994):
`RenderScrollbar(m.scrollOffset, len(m.filtered), listHeight)`. -/
def renderedScrollbarThumb (m : Model) : Option (Int × Int) :=
  scrollbarThumb m.scrollOffset (m.filteredList.length : Int) (getListHeight m)

/-- `thumbHeight` exactly as the spec words it:
`max(1, viewportHeight^2 / projectionLength)`. -/
def specThumbHeight (viewportHeight projectionLength : Int) : Int :=
  goMax 1 (goIntDiv (viewportHeight * viewportHeight) projectionLength)

/-- `thumbPosition` exactly as the spec words it:
`index * (viewportHeight - thumbHeight) / max(1, projectionLength - viewportHeight)`. -/
def specThumbPos (index projectionLength viewportHeight : Int) : Int :=
  goIntDiv (index * (viewportHeight - specThumbHeight viewportHeight projectionLength))
    (goMax 1 (projectionLength - viewportHeight))

-- ===========================================================================
-- Concrete fixtures
-- ===========================================================================

/-- A project with the given name and every status field at its zero
value, as produced by `loadProjectsCmd` before enrichment. -/
def mkProject (n : String) : Project :=
  { name := n, path := ⟨[]⟩, ptype := ⟨[]⟩, language := ⟨[]⟩
  , lastBuildTime := 0, firstCommit := 0, lastCommit := 0
  , staged := 0, untracked := 0, modified := 0, issues := 0, prs := 0
  , vercelState := ⟨[]⟩, swiftClean := 0, swiftFailed := 0, running := false }

/-- The freshly constructed model (`NewModel`), restricted to the modelled
fields: empty registry, empty inputs, `ListView`. -/
def baseModel : Model :=
  { projects := [], filteredRepr := .shared, stats := Stats.zero
  , selectedIdx := 0, scrollOffset := 0, viewMode := .ListView
  , searchValue := ⟨[]⟩, chatValue := ⟨[]⟩, motionNum := ⟨[]⟩
  , height := 0, loading := false
  , chatResponse := ⟨[]⟩, chatError := ⟨[]⟩, chatLoading := false }

/-- A type detector that keeps the stored type (stands in for the
filesystem-dependent `detectProjectType` at concrete inputs). -/
def detect0 : Project → String := fun p => p.ptype

def nameBest : String := "bestwnc.com"

def nameIleague : String := "ileague.golf"

def nameWhisper : String := "whisper-app"

def nameNfglyph : String := "nfglyph"

/-- The registry of spec §8 Scenario A, in load order. -/
def scenarioAProjects : List Project :=
  [mkProject nameBest, mkProject nameIleague, mkProject nameWhisper, mkProject nameNfglyph]

def filterI : String := "i"

-- ===========================================================================
-- Helper lemmas
-- ===========================================================================

lemma goCount_nonneg (s : String) : 0 ≤ goCount s := by
  unfold goCount
  split
  · norm_num
  · exact Int.natCast_nonneg _

lemma getListHeight_ge_five (m : Model) : 5 ≤ getListHeight m := by
  unfold getListHeight goMax
  split <;> omega

lemma goMin_eq (a b : Int) : goMin a b = if a < b then a else b := rfl

lemma goMax_eq (a b : Int) : goMax a b = if a > b then a else b := rfl

lemma singleton_inj {a b : Char} (h : String.singleton a = String.singleton b) : a = b := by
  have hd := congrArg String.data h
  simpa [String.singleton] using hd

lemma singleton_ne_of_length (c : Char) (s : String) (hs : s.length ≠ 1) :
    String.singleton c ≠ s := by
  intro h
  exact hs (by rw [← h]; rfl)

@[simp] lemma ensureVisible_selectedIdx (m : Model) (h : Int) :
    (ensureVisible m h).selectedIdx = m.selectedIdx := by
  unfold ensureVisible
  split
  · rfl
  · split
    · rfl
    · rfl

@[simp] lemma ensureVisible_projects (m : Model) (h : Int) :
    (ensureVisible m h).projects = m.projects := by
  unfold ensureVisible
  split
  · rfl
  · split
    · rfl
    · rfl

@[simp] lemma ensureVisible_filteredRepr (m : Model) (h : Int) :
    (ensureVisible m h).filteredRepr = m.filteredRepr := by
  unfold ensureVisible
  split
  · rfl
  · split
    · rfl
    · rfl

@[simp] lemma ensureVisible_motionNum (m : Model) (h : Int) :
    (ensureVisible m h).motionNum = m.motionNum := by
  unfold ensureVisible
  split
  · rfl
  · split
    · rfl
    · rfl

@[simp] lemma ensureVisible_height (m : Model) (h : Int) :
    (ensureVisible m h).height = m.height := by
  unfold ensureVisible
  split
  · rfl
  · split
    · rfl
    · rfl

@[simp] lemma ensureVisible_filteredList (m : Model) (h : Int) :
    (ensureVisible m h).filteredList = m.filteredList := by
  unfold Model.filteredList
  rw [ensureVisible_projects, ensureVisible_filteredRepr]

/-- After `ensureVisible` the selection sits inside the viewport. -/
lemma ensureVisible_visible (m : Model) (h : Int) (hh : 1 ≤ h) :
    (ensureVisible m h).scrollOffset ≤ (ensureVisible m h).selectedIdx ∧
      (ensureVisible m h).selectedIdx < (ensureVisible m h).scrollOffset + h := by
  unfold ensureVisible
  split
  · show m.selectedIdx ≤ m.selectedIdx ∧ m.selectedIdx < m.selectedIdx + h
    omega
  · split
    · show m.selectedIdx - h + 1 ≤ m.selectedIdx ∧ m.selectedIdx < m.selectedIdx - h + 1 + h
      omega
    · show m.scrollOffset ≤ m.selectedIdx ∧ m.selectedIdx < m.scrollOffset + h
      omega

lemma applyFirst_of_no_match (pred : Project → Bool) (f : Project → Project)
    (l : List Project) (h : ∀ p ∈ l, pred p = false) : applyFirst pred f l = l := by
  induction l with
  | nil => rfl
  | cons p ps ih =>
      rw [applyFirst, h p (List.mem_cons_self p ps)]
      simp [ih (fun q hq => h q (List.mem_cons_of_mem p hq))]

/-- Unfolding `handleListKey` at the `j` key. -/
lemma hlk_j (m : Model) : handleListKey m (Key.char 'j') =
    ensureVisible
      { m with motionNum := ⟨[]⟩
             , selectedIdx :=
                 goMin (m.selectedIdx + goCount m.motionNum) ((m.filteredList.length : Int) - 1) }
      (getListHeight m) := rfl

/-- Unfolding `handleListKey` at the down-arrow key. -/
lemma hlk_down (m : Model) : handleListKey m Key.down =
    ensureVisible
      { m with motionNum := ⟨[]⟩
             , selectedIdx :=
                 goMin (m.selectedIdx + goCount m.motionNum) ((m.filteredList.length : Int) - 1) }
      (getListHeight m) := rfl

/-- Unfolding `handleListKey` at the `k` key. -/
lemma hlk_k (m : Model) : handleListKey m (Key.char 'k') =
    ensureVisible
      { m with motionNum := ⟨[]⟩
             , selectedIdx := goMax (m.selectedIdx - goCount m.motionNum) 0 }
      (getListHeight m) := rfl

/-- Unfolding `handleListKey` at the up-arrow key. -/
lemma hlk_up (m : Model) : handleListKey m Key.up =
    ensureVisible
      { m with motionNum := ⟨[]⟩
             , selectedIdx := goMax (m.selectedIdx - goCount m.motionNum) 0 }
      (getListHeight m) := rfl

/-- Unfolding `handleListKey` at the `g` key. -/
lemma hlk_g (m : Model) : handleListKey m (Key.char 'g') =
    { m with motionNum := ⟨[]⟩, selectedIdx := 0, scrollOffset := 0 } := rfl

/-- Unfolding `handleListKey` at the `G` key. -/
lemma hlk_G (m : Model) : handleListKey m (Key.char 'G') =
    ensureVisible
      { m with motionNum := ⟨[]⟩, selectedIdx := (m.filteredList.length : Int) - 1 }
      (getListHeight m) := rfl

/-- Unfolding `handleListKey` at ctrl+d. -/
lemma hlk_ctrlD (m : Model) : handleListKey m Key.ctrlD =
    ensureVisible
      { m with motionNum := ⟨[]⟩
             , selectedIdx :=
                 goMin (m.selectedIdx + goIntDiv (getListHeight m) 2)
                   ((m.filteredList.length : Int) - 1) }
      (getListHeight m) := rfl

/-- Unfolding `handleListKey` at ctrl+u. -/
lemma hlk_ctrlU (m : Model) : handleListKey m Key.ctrlU =
    ensureVisible
      { m with motionNum := ⟨[]⟩
             , selectedIdx := goMax (m.selectedIdx - goIntDiv (getListHeight m) 2) 0 }
      (getListHeight m) := rfl

/-- Unfolding `handleListKey` at the search-activation key. -/
lemma hlk_slash (m : Model) : handleListKey m (Key.char '/') =
    { m with motionNum := ⟨[]⟩, viewMode := .SearchMode } := rfl

/-- Routing: a character key other than `q` pressed in `Search` mode reaches
`handleSearchKey`, which takes its text-editing branch. -/
lemma handleKey_search_char (m : Model) (c : Char)
    (hmode : m.viewMode = .SearchMode) (hc : c ≠ 'q') :
    handleKey m (Key.char c) =
      ({ m with searchValue := textinputUpdate 50 m.searchValue (Key.char c)
              , filteredRepr :=
                  syncFiltered m.projects (textinputUpdate 50 m.searchValue (Key.char c))
              , selectedIdx := 0, scrollOffset := 0 }, false) := by
  have h1 : ¬(keyString (Key.char c) = String.singleton 'q' ∨ keyString (Key.char c) = "ctrl+c") := by
    rintro (h | h)
    · exact hc (singleton_inj h)
    · exact singleton_ne_of_length c _ (by decide) h
  have h2 : keyString (Key.char c) ≠ "esc" :=
    singleton_ne_of_length c _ (by decide)
  have h3 : keyString (Key.char c) ≠ "enter" :=
    singleton_ne_of_length c _ (by decide)
  unfold handleKey
  rw [if_neg h1, if_neg h2, hmode]
  unfold handleSearchKey
  rw [if_neg h3, if_neg h2, hmode]

theorem scenarioA_expected_projection_is_wrong :
    ((syncFiltered scenarioAProjects filterI).view scenarioAProjects).map Project.name ≠
      [nameIleague, nameNfglyph] := by decide

/-- C5, as Scenario A's literal spellings force it: with the registry
[bestwnc.com, ileague.golf, whisper-app, nfglyph] and filter text "i", the
projection is [ileague.golf, whisper-app] in that order — "whisper-app"
contains an "i" and "nfglyph" does not. -/
theorem scenarioA_projection :
    ((syncFiltered scenarioAProjects filterI).view scenarioAProjects).map Project.name =
      [nameIleague, nameWhisper] := by decide

def nameAlpha : String := "alpha"

def filterA : String := "a"

def nameZeta : String := "zeta"

/-- A model in steady state with one project "alpha" and live filter "a":
the stored projection is the fresh copy `syncFiltered` builds. -/
def ghBugModel : Model :=
  { baseModel with projects := [mkProject nameAlpha], searchValue := filterA
                 , filteredRepr := .copy [mkProject nameAlpha] }

/-- C1: handling `ghStatusMsg{alpha, {Issues:3, PRs:1}}` on `ghBugModel`
updates the registry entry to 3 issues, but the stored projection — a copy,
because the filter is non-empty — still shows 0 issues and no longer equals
the projection recomputed from (projects, filter text): the `ghStatusMsg`
case is the only status handler that does not call `syncFiltered`. -/
theorem ghStatus_update_leaves_projection_stale :
    (updateMsg detect0 ghBugModel (Msg.ghStatus nameAlpha (some ⟨3, 1⟩))).projects.map
        Project.issues = [3] ∧
      (updateMsg detect0 ghBugModel (Msg.ghStatus nameAlpha (some ⟨3, 1⟩))).filteredList.map
        Project.issues = [0] ∧
      (updateMsg detect0 ghBugModel (Msg.ghStatus nameAlpha (some ⟨3, 1⟩))).filteredList ≠
        (syncFiltered (updateMsg detect0 ghBugModel (Msg.ghStatus nameAlpha (some ⟨3, 1⟩))).projects
            filterA).view
          (updateMsg detect0 ghBugModel (Msg.ghStatus nameAlpha (some ⟨3, 1⟩))).projects := by
  decide

/-- A model whose stored `Stats` is stale (staged total 7, registry all
zero), as after a `ctrl+r` reload: `projectsLoadedMsg` only refreshes
`TotalProjects`. -/
def staleStatsModel : Model :=
  { baseModel with projects := [mkProject nameAlpha]
                 , stats := { Stats.zero with totalStaged := 7, totalProjects := 1 } }

theorem gitStatus_nil_changes_stale_stats :
    (updateMsg detect0 staleStatsModel (Msg.gitStatus nameAlpha none)).stats ≠
      staleStatsModel.stats := by decide

/-- C9 (amended): a git-status event with a nil payload is a complete
no-op whenever the stored `Stats` and projection already equal their
recomputations from the registry — the handler mutates nothing and merely
refolds both. -/
theorem gitStatus_nil_is_noop (detect : Project → String) (m : Model) (name : String)
    (hstats : m.stats = updateStats m.projects)
    (hfilt : m.filteredRepr = syncFiltered m.projects m.searchValue) :
    updateMsg detect m (Msg.gitStatus name none) = m := by
  show { m with projects := m.projects, stats := updateStats m.projects
              , filteredRepr := syncFiltered m.projects m.searchValue } = m
  rw [← hstats, ← hfilt]

/-- A steady-state model for the nil-git-status no-op. -/
def steadyModel : Model :=
  { baseModel with projects := [mkProject nameAlpha]
                 , stats := updateStats [mkProject nameAlpha], filteredRepr := .shared }

theorem gitStatus_nil_is_noop_witness :
    updateMsg detect0 steadyModel (Msg.gitStatus nameAlpha none) = steadyModel :=
  gitStatus_nil_is_noop detect0 steadyModel nameAlpha (by decide) (by decide)

/-- C10: every `handleSearchKey` branch other than confirm and cancel —
i.e. every keystroke that edits the filter text — resets both the
selection index and the scroll offset to 0. -/
theorem handleSearchKey_resets_selection (m : Model) (k : Key)
    (h1 : keyString k ≠ "enter") (h2 : keyString k ≠ "esc") :
    (handleSearchKey m k).selectedIdx = 0 ∧ (handleSearchKey m k).scrollOffset = 0 := by
  unfold handleSearchKey
  rw [if_neg h1, if_neg h2]
  exact ⟨rfl, rfl⟩

def selectionModel : Model :=
  { baseModel with viewMode := .SearchMode, selectedIdx := 5, scrollOffset := 3 }

theorem handleSearchKey_resets_selection_witness :
    (handleSearchKey selectionModel (Key.char 'a')).selectedIdx = 0 ∧
      (handleSearchKey selectionModel (Key.char 'a')).scrollOffset = 0 :=
  handleSearchKey_resets_selection selectionModel (Key.char 'a') (by decide) (by decide)

/-- C2: a status-update event of any of the five kinds whose project name
is absent from the registry leaves the registry unchanged — no entry is
created and no existing project is mutated. -/
theorem unknown_name_status_update_is_noop (detect : Project → String) (m : Model)
    (msg : Msg) (name : String)
    (hkey : msg.statusName? = some name)
    (habsent : ∀ p ∈ m.projects, p.name ≠ name) :
    (updateMsg detect m msg).projects = m.projects := by
  have hpred : ∀ p ∈ m.projects, (p.name == name) = false := by
    intro p hp
    simpa using habsent p hp
  cases msg with
  | projectsLoaded ps => simp [Msg.statusName?] at hkey
  | gitStatus n st =>
      have hn : n = name := by simpa [Msg.statusName?] using hkey
      subst hn
      cases st with
      | none => rfl
      | some s => exact applyFirst_of_no_match _ _ _ hpred
  | ghStatus n st =>
      have hn : n = name := by simpa [Msg.statusName?] using hkey
      subst hn
      cases st with
      | none => rfl
      | some s => exact applyFirst_of_no_match _ _ _ hpred
  | vercelStatus n state =>
      have hn : n = name := by simpa [Msg.statusName?] using hkey
      subst hn
      exact applyFirst_of_no_match _ _ _ hpred
  | gitTimes n fc lc =>
      have hn : n = name := by simpa [Msg.statusName?] using hkey
      subst hn
      exact applyFirst_of_no_match _ _ _ hpred
  | language n lang =>
      have hn : n = name := by simpa [Msg.statusName?] using hkey
      subst hn
      exact applyFirst_of_no_match _ _ _ hpred

/-- A sample git payload for a project name not in the registry. -/
def staleGitPayload : GitStatus :=
  { untracked := 5, modified := 2, staged := 1, branch := ⟨[]⟩, ahead := 0, behind := 0 }

theorem unknown_name_status_update_is_noop_witness :
    (updateMsg detect0 steadyModel (Msg.gitStatus nameZeta (some staleGitPayload))).projects =
      steadyModel.projects :=
  unknown_name_status_update_is_noop detect0 steadyModel
    (Msg.gitStatus nameZeta (some staleGitPayload)) nameZeta rfl (by decide)

/-- The keys whose `handleListKey` case moves the selection: `j`/down,
`k`/up, `g`, `G`, ctrl+d, ctrl+u. -/
def isNavKey : Key → Bool
  | .char c => c == 'j' || c == 'k' || c == 'g' || c == 'G'
  | .down | .up | .ctrlD | .ctrlU => true
  | _ => false

theorem nav_on_empty_projection_moves_selection :
    baseModel.filteredList = [] ∧ baseModel.selectedIdx = 0 ∧ baseModel.scrollOffset = 0 ∧
      (handleListKey baseModel (Key.char 'j')).selectedIdx = -1 ∧
      (handleListKey baseModel (Key.char 'j')).scrollOffset = -1 := by decide

/-- The post-state shape shared by all six clamping moves: an in-range
target index followed by `ensureVisible` keeps the selection in range and
inside the viewport, and leaves the projection untouched. -/
lemma nav_move_ok (m : Model) (x : Int)
    (hx0 : 0 ≤ x) (hx1 : x < (m.filteredList.length : Int)) :
    0 ≤ (ensureVisible { m with motionNum := ⟨[]⟩, selectedIdx := x } (getListHeight m)).selectedIdx ∧
      (ensureVisible { m with motionNum := ⟨[]⟩, selectedIdx := x } (getListHeight m)).selectedIdx <
        (m.filteredList.length : Int) ∧
      (ensureVisible { m with motionNum := ⟨[]⟩, selectedIdx := x } (getListHeight m)).scrollOffset ≤
        (ensureVisible { m with motionNum := ⟨[]⟩, selectedIdx := x } (getListHeight m)).selectedIdx ∧
      (ensureVisible { m with motionNum := ⟨[]⟩, selectedIdx := x } (getListHeight m)).selectedIdx <
        (ensureVisible { m with motionNum := ⟨[]⟩, selectedIdx := x } (getListHeight m)).scrollOffset +
          getListHeight m ∧
      (ensureVisible { m with motionNum := ⟨[]⟩, selectedIdx := x } (getListHeight m)).filteredList =
        m.filteredList := by
  have hh := getListHeight_ge_five m
  have hvis := ensureVisible_visible
    { m with motionNum := (⟨[]⟩ : String), selectedIdx := x } (getListHeight m) (by omega)
  refine ⟨?_, ?_, hvis.1, hvis.2, ?_⟩
  · rw [ensureVisible_selectedIdx]
    exact hx0
  · rw [ensureVisible_selectedIdx]
    exact hx1
  · rw [ensureVisible_filteredList]
    rfl

/-- C3 (amended): every selection-moving key handled in Browse mode, from a
state whose selection is in range of a non-empty projection, leaves the
selection in `[0, len-1]` with the viewport invariant
`scrollOffset ≤ selectionIndex < scrollOffset + viewportHeight`
re-established, and the projection unchanged.  (An empty projection is not
a no-op: the `j` clamp drives the selection to `-1`.) -/
theorem nav_selection_in_bounds (m : Model) (k : Key)
    (hk : isNavKey k = true)
    (h0 : 0 ≤ m.selectedIdx) (h1 : m.selectedIdx < (m.filteredList.length : Int)) :
    0 ≤ (handleListKey m k).selectedIdx ∧
      (handleListKey m k).selectedIdx < (m.filteredList.length : Int) ∧
      (handleListKey m k).scrollOffset ≤ (handleListKey m k).selectedIdx ∧
      (handleListKey m k).selectedIdx < (handleListKey m k).scrollOffset + getListHeight m ∧
      (handleListKey m k).filteredList = m.filteredList := by
  have hh := getListHeight_ge_five m
  have hc := goCount_nonneg m.motionNum
  have hd : 0 ≤ goIntDiv (getListHeight m) 2 := Int.tdiv_nonneg (by omega) (by norm_num)
  cases k with
  | char c =>
      simp only [isNavKey, Bool.or_eq_true, beq_iff_eq] at hk
      rcases hk with ((rfl | rfl) | rfl) | rfl
      · rw [hlk_j]
        exact nav_move_ok m _ (by unfold goMin; split <;> omega) (by unfold goMin; split <;> omega)
      · rw [hlk_k]
        exact nav_move_ok m _ (by unfold goMax; split <;> omega) (by unfold goMax; split <;> omega)
      · rw [hlk_g]
        refine ⟨?_, ?_, ?_, ?_, rfl⟩
        · show (0 : Int) ≤ 0
          omega
        · show (0 : Int) < (m.filteredList.length : Int)
          omega
        · show (0 : Int) ≤ 0
          omega
        · show (0 : Int) < 0 + getListHeight m
          omega
      · rw [hlk_G]
        exact nav_move_ok m _ (by omega) (by omega)
  | down =>
      rw [hlk_down]
      exact nav_move_ok m _ (by unfold goMin; split <;> omega) (by unfold goMin; split <;> omega)
  | up =>
      rw [hlk_up]
      exact nav_move_ok m _ (by unfold goMax; split <;> omega) (by unfold goMax; split <;> omega)
  | ctrlD =>
      rw [hlk_ctrlD]
      exact nav_move_ok m _ (by unfold goMin; split <;> omega) (by unfold goMin; split <;> omega)
  | ctrlU =>
      rw [hlk_ctrlU]
      exact nav_move_ok m _ (by unfold goMax; split <;> omega) (by unfold goMax; split <;> omega)
  | enter => simp [isNavKey] at hk
  | esc => simp [isNavKey] at hk
  | backspace => simp [isNavKey] at hk
  | ctrlC => simp [isNavKey] at hk
  | ctrlR => simp [isNavKey] at hk

/-- A Browse-mode model with three projects and the selection on the last. -/
def browseModel : Model :=
  { baseModel with
      projects := [mkProject nameBest, mkProject nameIleague, mkProject nameNfglyph]
    , filteredRepr := .shared, selectedIdx := 2, scrollOffset := 0, height := 30 }

theorem nav_selection_in_bounds_witness :
    0 ≤ (handleListKey browseModel (Key.char 'j')).selectedIdx ∧
      (handleListKey browseModel (Key.char 'j')).selectedIdx <
        (browseModel.filteredList.length : Int) :=
  ⟨(nav_selection_in_bounds browseModel (Key.char 'j') (by decide) (by decide) (by decide)).1,
   (nav_selection_in_bounds browseModel (Key.char 'j') (by decide) (by decide) (by decide)).2.1⟩

/-- Unfolding `handleListKey` at an accumulating digit key: the digit is
appended to the motion accumulator and nothing else changes. -/
lemma hlk_digit (m : Model) (c : Char) (hdig : keyIsDigit (Key.char c) = true)
    (hc : m.motionNum ≠ ⟨[]⟩ ∨ c ≠ '0') :
    handleListKey m (Key.char c) = { m with motionNum := m.motionNum ++ String.singleton c } := by
  have hcond : (keyIsDigit (Key.char c) &&
      (decide (m.motionNum ≠ (⟨[]⟩ : String)) ||
        decide (keyString (Key.char c) ≠ String.singleton '0'))) = true := by
    rw [hdig, Bool.true_and, Bool.or_eq_true, decide_eq_true_eq, decide_eq_true_eq]
    rcases hc with h | h
    · exact Or.inl h
    · exact Or.inr (fun he => h (singleton_inj he))
  unfold handleListKey
  rw [if_pos hcond]
  rfl

/-- C4: from Browse with a clear motion accumulator and the selection at
index 0 of an `n`-item projection (`n ≥ 1`), pressing `5` accumulates into
the prefix without moving the selection; the following `j` consumes the
prefix as the repeat count and moves the selection to `min(5, n-1)`
(index 5 for a 10-item projection, clamped to the last index for shorter
ones) and clears the prefix; a subsequent bare `j` moves by exactly 1
(clamped to the last index). -/
theorem motion_prefix_scenario (m : Model) (n : Nat)
    (hlen : m.filteredList.length = n) (hn : 1 ≤ n)
    (hidx : m.selectedIdx = 0) (hmn : m.motionNum = ⟨[]⟩) :
    (∀ (m' : Model) (c : Char), keyIsDigit (Key.char c) = true →
        (m'.motionNum ≠ (⟨[]⟩ : String) ∨ c ≠ '0') →
        handleListKey m' (Key.char c) =
          { m' with motionNum := m'.motionNum ++ String.singleton c }) ∧
      (handleListKey m (Key.char '5')).selectedIdx = 0 ∧
      (handleListKey m (Key.char '5')).scrollOffset = m.scrollOffset ∧
      (handleListKey m (Key.char '5')).motionNum = String.singleton '5' ∧
      (handleListKey (handleListKey m (Key.char '5')) (Key.char 'j')).selectedIdx =
        goMin 5 ((n : Int) - 1) ∧
      (handleListKey (handleListKey m (Key.char '5')) (Key.char 'j')).motionNum = ⟨[]⟩ ∧
      (handleListKey (handleListKey (handleListKey m (Key.char '5')) (Key.char 'j'))
            (Key.char 'j')).selectedIdx =
        goMin ((handleListKey (handleListKey m (Key.char '5')) (Key.char 'j')).selectedIdx + 1)
          ((n : Int) - 1) := by
  have hg5 : goCount (String.singleton '5') = 5 := by decide
  have hg0 : goCount (⟨[]⟩ : String) = 1 := by decide
  have h1 : handleListKey m (Key.char '5') =
      { m with motionNum := m.motionNum ++ String.singleton '5' } :=
    hlk_digit m '5' (by decide) (Or.inr (by decide))
  have e1 : (handleListKey m (Key.char '5')).selectedIdx = 0 := by
    rw [h1]
    exact hidx
  have e2 : (handleListKey m (Key.char '5')).scrollOffset = m.scrollOffset := by
    rw [h1]
  have e3 : (handleListKey m (Key.char '5')).motionNum = String.singleton '5' := by
    rw [h1]
    show m.motionNum ++ String.singleton '5' = String.singleton '5'
    rw [hmn]
    decide
  have e4 : (handleListKey m (Key.char '5')).filteredList = m.filteredList := by
    rw [h1]
    rfl
  have h2 := hlk_j (handleListKey m (Key.char '5'))
  have e5 : (handleListKey (handleListKey m (Key.char '5')) (Key.char 'j')).selectedIdx =
      goMin 5 ((n : Int) - 1) := by
    rw [h2, ensureVisible_selectedIdx]
    show goMin ((handleListKey m (Key.char '5')).selectedIdx +
        goCount (handleListKey m (Key.char '5')).motionNum)
        (((handleListKey m (Key.char '5')).filteredList.length : Int) - 1) =
      goMin 5 ((n : Int) - 1)
    rw [e1, e3, e4, hlen, hg5]
    norm_num
  have e6 : (handleListKey (handleListKey m (Key.char '5')) (Key.char 'j')).motionNum =
      (⟨[]⟩ : String) := by
    rw [h2, ensureVisible_motionNum]
  have e7 : (handleListKey (handleListKey m (Key.char '5')) (Key.char 'j')).filteredList =
      m.filteredList := by
    rw [h2, ensureVisible_filteredList]
    exact e4
  have h3 := hlk_j (handleListKey (handleListKey m (Key.char '5')) (Key.char 'j'))
  refine ⟨fun m' c h1' h2' => hlk_digit m' c h1' h2', e1, e2, e3, e5, e6, ?_⟩
  rw [h3, ensureVisible_selectedIdx]
  show goMin ((handleListKey (handleListKey m (Key.char '5')) (Key.char 'j')).selectedIdx +
      goCount (handleListKey (handleListKey m (Key.char '5')) (Key.char 'j')).motionNum)
      (((handleListKey (handleListKey m (Key.char '5')) (Key.char 'j')).filteredList.length :
          Int) - 1) =
    goMin ((handleListKey (handleListKey m (Key.char '5')) (Key.char 'j')).selectedIdx + 1)
      ((n : Int) - 1)
  rw [e6, e7, hlen, hg0]

/-- A Browse-mode model with a 10-item projection and the selection at 0. -/
def motionModel : Model :=
  { baseModel with projects := List.replicate 10 (mkProject nameAlpha)
                 , filteredRepr := .shared, height := 30 }

theorem motion_prefix_scenario_witness :
    (handleListKey (handleListKey motionModel (Key.char '5')) (Key.char 'j')).selectedIdx = 5 ∧
      (handleListKey (handleListKey (handleListKey motionModel (Key.char '5')) (Key.char 'j'))
          (Key.char 'j')).selectedIdx = 6 := by
  have h := motion_prefix_scenario motionModel 10 (by decide) (by decide) (by decide) (by decide)
  refine ⟨?_, ?_⟩
  · rw [h.2.2.2.2.1]
    decide
  · rw [h.2.2.2.2.2.2, h.2.2.2.2.1]
    decide

def filterX : String := "x"

/-- A Search-mode model with live filter text "x". -/
def searchQModel : Model :=
  { baseModel with viewMode := .SearchMode, searchValue := filterX }

theorem q_in_search_mode_exits_to_browse :
    (handleKey searchQModel (Key.char 'q')).1.viewMode = ViewMode.ListView ∧
      (handleKey searchQModel (Key.char 'q')).1.searchValue = searchQModel.searchValue ∧
      (handleKey searchQModel (Key.char 'q')).2 = false := by decide

/-- C6 (amended): in Search mode every character key other than `q` is
routed to the text input: the program does not quit, the mode stays
`Search`, the filter text is updated (appended while under the 50-rune
limit) and the projection is recomputed from the updated text on that same
keystroke.  (`q` is intercepted by the global handler and returns to
Browse with the filter text untouched.) -/
theorem search_char_edits_filter (m : Model) (c : Char)
    (hmode : m.viewMode = .SearchMode) (hc : c ≠ 'q') :
    (handleKey m (Key.char c)).2 = false ∧
      (handleKey m (Key.char c)).1.viewMode = .SearchMode ∧
      (handleKey m (Key.char c)).1.searchValue = textinputUpdate 50 m.searchValue (Key.char c) ∧
      (handleKey m (Key.char c)).1.filteredRepr =
        syncFiltered m.projects (textinputUpdate 50 m.searchValue (Key.char c)) ∧
      (handleKey m (Key.char c)).1.projects = m.projects ∧
      (m.searchValue.length < 50 →
        (handleKey m (Key.char c)).1.searchValue = m.searchValue.push c) := by
  rw [handleKey_search_char m c hmode hc]
  refine ⟨rfl, hmode, rfl, rfl, rfl, ?_⟩
  intro hlim
  show (if m.searchValue.length < 50 then m.searchValue.push c else m.searchValue) =
    m.searchValue.push c
  rw [if_pos hlim]

theorem search_char_edits_filter_witness :
    (handleKey searchQModel (Key.char 'a')).1.viewMode = ViewMode.SearchMode ∧
      (handleKey searchQModel (Key.char 'a')).1.searchValue =
        textinputUpdate 50 searchQModel.searchValue (Key.char 'a') :=
  ⟨(search_char_edits_filter searchQModel 'a' rfl (by decide)).2.1,
   (search_char_edits_filter searchQModel 'a' rfl (by decide)).2.2.1⟩

/-- A rendered frame: 20 projects, terminal height 13 (list height 5),
scrolled to the top with the selection on row 4. -/
def scrollModel20 : Model :=
  { baseModel with projects := List.replicate 20 (mkProject nameAlpha)
                 , filteredRepr := .shared, height := 13, selectedIdx := 4 }

theorem scrollbar_ignores_selection_index :
    renderedScrollbarThumb scrollModel20 = some (1, 0) ∧
      specThumbPos scrollModel20.selectedIdx (scrollModel20.filteredList.length : Int)
        (getListHeight scrollModel20) = 1 ∧
      renderedScrollbarThumb scrollModel20 ≠
        some (specThumbHeight (getListHeight scrollModel20)
            (scrollModel20.filteredList.length : Int),
          specThumbPos scrollModel20.selectedIdx (scrollModel20.filteredList.length : Int)
            (getListHeight scrollModel20)) := by decide

/-- C7 (amended): whenever the projection is longer than the viewport, the
rendered thumb satisfies `thumbHeight = max(1, viewportHeight² / len)` and
`thumbPosition = scrollOffset * (viewportHeight - thumbHeight) / max(1, len
- viewportHeight)` — the position is driven by the scroll offset, not the
selection index; when the projection fits, no scrollbar is rendered. -/
theorem scrollbar_thumb_from_scroll_offset (m : Model)
    (hgt : getListHeight m < (m.filteredList.length : Int)) :
    renderedScrollbarThumb m =
      some (specThumbHeight (getListHeight m) (m.filteredList.length : Int),
        specThumbPos m.scrollOffset (m.filteredList.length : Int) (getListHeight m)) := by
  unfold renderedScrollbarThumb scrollbarThumb
  rw [if_neg (show ¬(m.filteredList.length : Int) ≤ getListHeight m by omega)]
  unfold specThumbPos specThumbHeight
  have hden : goMax 1 ((m.filteredList.length : Int) - getListHeight m) =
      (m.filteredList.length : Int) - getListHeight m := by
    unfold goMax
    split <;> omega
  rw [hden]

theorem scrollbar_thumb_from_scroll_offset_witness :
    renderedScrollbarThumb scrollModel20 =
      some (specThumbHeight (getListHeight scrollModel20)
          (scrollModel20.filteredList.length : Int),
        specThumbPos scrollModel20.scrollOffset (scrollModel20.filteredList.length : Int)
          (getListHeight scrollModel20)) :=
  scrollbar_thumb_from_scroll_offset scrollModel20 (by decide)

def nameBeta : String := "beta"

/-- A Browse-mode model with two projects and no filter. -/
def twoProjModel : Model :=
  { baseModel with projects := [mkProject nameAlpha, mkProject nameBeta]
                 , filteredRepr := .shared }

theorem search_roundtrip_fails_on_q :
    (runKeys twoProjModel [Key.char '/', Key.char 'b', Key.char 'q', Key.esc]).searchValue ≠
        (⟨[]⟩ : String) ∧
      (runKeys twoProjModel [Key.char '/', Key.char 'b', Key.char 'q', Key.esc]).filteredList ≠
        twoProjModel.projects := by decide

/-- Routing: the search-activation key pressed in Browse mode. -/
lemma handleKey_slash_browse (m : Model) (hmode : m.viewMode = .ListView) :
    handleKey m (Key.char '/') =
      ({ m with motionNum := ⟨[]⟩, viewMode := .SearchMode }, false) := by
  have h1 : ¬(keyString (Key.char '/') = String.singleton 'q' ∨
      keyString (Key.char '/') = "ctrl+c") := by decide
  have h2 : keyString (Key.char '/') ≠ "esc" := by decide
  unfold handleKey
  rw [if_neg h1, if_neg h2, hmode]
  show (handleListKey m (Key.char '/'), false) = _
  rw [hlk_slash]

/-- Routing: the cancel key pressed outside Browse clears the text inputs,
re-aliases the projection to the registry and returns to Browse. -/
lemma handleKey_esc_nonlist (s : Model) (hs : s.viewMode ≠ .ListView) :
    handleKey s Key.esc =
      ({ s with viewMode := .ListView, searchValue := ⟨[]⟩, chatValue := ⟨[]⟩
              , filteredRepr := .shared, chatResponse := ⟨[]⟩, chatError := ⟨[]⟩ }, false) := by
  have h1 : ¬(keyString Key.esc = String.singleton 'q' ∨ keyString Key.esc = "ctrl+c") := by
    decide
  unfold handleKey
  rw [if_neg h1, if_pos (show keyString Key.esc = "esc" from rfl), if_pos hs]

/-- A run of character keys other than `q` keeps the model in Search mode
and never touches the registry. -/
lemma runKeys_search_chars (cs : List Char) : ∀ s : Model, s.viewMode = .SearchMode →
    (∀ c ∈ cs, c ≠ 'q') →
    (runKeys s (cs.map Key.char)).viewMode = .SearchMode ∧
      (runKeys s (cs.map Key.char)).projects = s.projects := by
  induction cs with
  | nil => exact fun s hm _ => ⟨hm, rfl⟩
  | cons c cs ih =>
      intro s hm hq
      have hstep := handleKey_search_char s c hm (hq c (List.mem_cons_self c cs))
      show (runKeys (handleKey s (Key.char c)).1 (cs.map Key.char)).viewMode = _ ∧
        (runKeys (handleKey s (Key.char c)).1 (cs.map Key.char)).projects = _
      rw [hstep]
      exact ih _ hm (fun d hd => hq d (List.mem_cons_of_mem c hd))

/-- C8 (amended): from Browse with no prior filter, entering Search, typing
any sequence of characters none of which is the global quit key `q`, and
then pressing cancel returns to Browse with the filter text cleared and the
projection restored to the full registry.  (A typed `q` leaves Search early
and strands the partial filter, as the counterexample shows.) -/
theorem search_roundtrip_restores_projection (m : Model) (cs : List Char)
    (hmode : m.viewMode = .ListView) (hsv : m.searchValue = ⟨[]⟩)
    (hq : ∀ c ∈ cs, c ≠ 'q') :
    (runKeys m (Key.char '/' :: (cs.map Key.char ++ [Key.esc]))).viewMode = .ListView ∧
      (runKeys m (Key.char '/' :: (cs.map Key.char ++ [Key.esc]))).searchValue = ⟨[]⟩ ∧
      (runKeys m (Key.char '/' :: (cs.map Key.char ++ [Key.esc]))).filteredList = m.projects := by
  have h0 := handleKey_slash_browse m hmode
  show (runKeys (handleKey m (Key.char '/')).1 (cs.map Key.char ++ [Key.esc])).viewMode = _ ∧
    (runKeys (handleKey m (Key.char '/')).1 (cs.map Key.char ++ [Key.esc])).searchValue = _ ∧
    (runKeys (handleKey m (Key.char '/')).1 (cs.map Key.char ++ [Key.esc])).filteredList = _
  rw [h0]
  have hsplit : ∀ x : Model, runKeys x (cs.map Key.char ++ [Key.esc]) =
      (handleKey (runKeys x (cs.map Key.char)) Key.esc).1 := by
    intro x
    unfold runKeys
    rw [List.foldl_append]
    rfl
  rw [hsplit]
  obtain ⟨hv, hp⟩ :=
    runKeys_search_chars cs { m with motionNum := (⟨[]⟩ : String), viewMode := .SearchMode }
      rfl hq
  rw [handleKey_esc_nonlist _ (by rw [hv]; decide)]
  refine ⟨rfl, rfl, ?_⟩
  show FilteredRepr.view
      (runKeys { m with motionNum := (⟨[]⟩ : String), viewMode := ViewMode.SearchMode }
        (cs.map Key.char)).projects FilteredRepr.shared = m.projects
  rw [FilteredRepr.view, hp]

theorem search_roundtrip_restores_projection_witness :
    (runKeys twoProjModel [Key.char '/', Key.char 'b', Key.esc]).viewMode = ViewMode.ListView ∧
      (runKeys twoProjModel [Key.char '/', Key.char 'b', Key.esc]).searchValue =
        (⟨[]⟩ : String) ∧
      (runKeys twoProjModel [Key.char '/', Key.char 'b', Key.esc]).filteredList =
        twoProjModel.projects :=
  search_roundtrip_restores_projection twoProjModel ['b'] rfl rfl (by decide)
